import Mathlib

/-!
Shallow embedding of the `Fundme` Solidity contract
(`contracts/Fundme.sol`): a pooled-treasury governance engine with
weighted or count-based quorum voting over disbursement projects and
self-modification proposals.

Conventions of the embedding:
* `Address` is `Nat`; the zero address is `0`.
* `uint256` values are `Nat`.  Solidity 0.8 checked arithmetic reverts on
  underflow, so every subtraction in the contract is guarded by an explicit
  check that returns an error (reverts).  Additions and the quorum product
  are far below `2 ^ 256` on all states considered here and are modelled as
  unbounded `Nat` arithmetic.
* Every state-mutating entry point is a function
  `State → ... → Except Err State`; returning `.error e` models a revert
  (the caller observes the original state unchanged).
* The external low-level call made by `executeProject` is modelled by an
  oracle `ext : Address → Nat → List Nat → Bool` giving the success flag of
  the callee; in addition the EVM makes a value transfer fail when the
  contract balance is insufficient, so the overall success flag also
  requires `value ≤ balance`.
* `keccak256(bytes a) == keccak256(bytes b)` on strings is modelled as
  string equality (collision freeness of the hash).
-/

namespace Fundme

abbrev Address := Nat

/-- Embedding of `struct Project` of `Fundme.sol`. -/
structure Project where
  («to» : Address)
  value : Nat
  data : List Nat
  executed : Bool
  numApprovals : Nat
  weight : Nat
deriving DecidableEq

/-- Embedding of `struct Proposal` of `Fundme.sol`. -/
structure Proposal where
  proposalType : String
  newMember : Address
  newPercentageApprovalsRequired : Nat
  newNumApprovalsRequired : Nat
  newVotingByWeight : Bool
  numApprovals : Nat
  weight : Nat
  executed : Bool
deriving DecidableEq

/-- The full contract storage, plus the contract ether balance. -/
structure State where
  members : List Address
  isMember : Address → Bool
  contributionsOf : Address → Nat
  totalContributions : Nat
  percentageApprovalsRequired : Nat
  numApprovalsRequired : Nat
  votingByWeight : Bool
  isApproveed : Nat → Address → Bool
  isProposalApproveed : Nat → Address → Bool
  projects : List Project
  proposals : List Proposal
  balance : Nat

/-- Revert reasons of the contract, one constructor per `require` message,
plus the checked-arithmetic underflow revert. -/
inductive Err where
  | notMember
  | txDoesNotExist
  | proposalDoesNotExist
  | txAlreadyExecuted
  | txAlreadyApproved
  | proposalAlreadyExecuted
  | proposalAlreadyApproved
  | txNotApproved
  | cannotExecuteByWeight
  | cannotExecuteByCount
  | txFailed
  | memberAlreadyExists
  | memberDoesNotExist
  | membersRequired
  | invalidPercentage
  | invalidNumApprovals
  | invalidMember
  | memberNotUnique
  | underflow
deriving DecidableEq

/-- The member-installation loop of the constructor: checks each address is
nonzero and not yet a member, then records it in both the list and the
membership map. -/
def installMembers : List Address → List Address → (Address → Bool) →
    Except Err (List Address × (Address → Bool))
  | [], acc, im => .ok (acc, im)
  | m :: rest, acc, im =>
    if m = 0 then .error .invalidMember
    else if im m then .error .memberNotUnique
    else installMembers rest (acc ++ [m]) (fun a => if a = m then true else im a)

/-- The contract constructor: validates the threshold bounds, installs the
initial members, and stores the quorum parameters. -/
def deployFundme (ms : List Address) (numReq : Nat) (pctReq : Nat)
    (byWeight : Bool) : Except Err State :=
  if ms.length = 0 then .error .membersRequired
  else if 100 < pctReq then .error .invalidPercentage
  else if ms.length < numReq then .error .invalidNumApprovals
  else
    match installMembers ms [] (fun _ => false) with
    | .error e => .error e
    | .ok (mlist, im) =>
      .ok { members := mlist
            isMember := im
            contributionsOf := fun _ => 0
            totalContributions := 0
            percentageApprovalsRequired := pctReq
            numApprovalsRequired := numReq
            votingByWeight := byWeight
            isApproveed := fun _ _ => false
            isProposalApproveed := fun _ _ => false
            projects := []
            proposals := []
            balance := 0 }

/-- The `receive()` function: the ether is always accepted into the balance;
only when the sender is a member are the contribution map and
`totalContributions` increased. -/
def receiveFn (s : State) (sender : Address) (value : Nat) : State :=
  if s.isMember sender then
    { s with
      contributionsOf := fun a =>
        if a = sender then s.contributionsOf a + value else s.contributionsOf a
      totalContributions := s.totalContributions + value
      balance := s.balance + value }
  else
    { s with balance := s.balance + value }

/-- Function `submitProject`: appends a fresh project record. -/
def submitProject (s : State) (sender : Address) (target : Address) (value : Nat)
    (data : List Nat) : Except Err State :=
  if s.isMember sender then
    .ok { s with projects := s.projects ++
            [{ «to» := target, value := value, data := data, executed := false
               numApprovals := 0, weight := 0 }] }
  else .error .notMember

/-- Function `approveProject`: guarded by `onlyMember`, `txExists`, `notExecuted`,
`notApproveed`; adds one approval and the current contribution of the sender
to the project weight. -/
def approveProject (s : State) (sender : Address) (txIndex : Nat) :
    Except Err State :=
  if s.isMember sender then
    match s.projects[txIndex]? with
    | none => .error .txDoesNotExist
    | some p =>
      if p.executed then .error .txAlreadyExecuted
      else if s.isApproveed txIndex sender then .error .txAlreadyApproved
      else
        .ok { s with
          projects := s.projects.set txIndex
            { p with numApprovals := p.numApprovals + 1
                     weight := p.weight + s.contributionsOf sender }
          isApproveed := fun i a =>
            if i = txIndex ∧ a = sender then true else s.isApproveed i a }
  else .error .notMember

/-- Function `executeProject`: checks quorum under the configuration current in `s`
(strict weight test in weight mode, inclusive count test otherwise), marks
the project executed, and performs the external call; `require(success)`
reverts the whole call, including the `executed` flag, when the call fails. -/
def executeProject (s : State) (sender : Address) (txIndex : Nat)
    (ext : Address → Nat → List Nat → Bool) : Except Err State :=
  if s.isMember sender then
    match s.projects[txIndex]? with
    | none => .error .txDoesNotExist
    | some p =>
      if p.executed then .error .txAlreadyExecuted
      else
        if s.votingByWeight then
          if s.totalContributions * s.percentageApprovalsRequired / 100 < p.weight
          then
            if ext p.to p.value p.data ∧ p.value ≤ s.balance then
              .ok { s with
                projects := s.projects.set txIndex { p with executed := true }
                balance := s.balance - p.value }
            else .error .txFailed
          else .error .cannotExecuteByWeight
        else
          if s.numApprovalsRequired ≤ p.numApprovals then
            if ext p.to p.value p.data ∧ p.value ≤ s.balance then
              .ok { s with
                projects := s.projects.set txIndex { p with executed := true }
                balance := s.balance - p.value }
            else .error .txFailed
          else .error .cannotExecuteByCount
  else .error .notMember

/-- Function `revokeApproval`: guarded by `onlyMember`, `txExists`, `notExecuted` and
a prior approval by the sender; decrements the approval counter and
subtracts the CURRENT contribution of the sender from the project weight,
both with checked (reverting) subtraction. -/
def revokeApproval (s : State) (sender : Address) (txIndex : Nat) :
    Except Err State :=
  if s.isMember sender then
    match s.projects[txIndex]? with
    | none => .error .txDoesNotExist
    | some p =>
      if p.executed then .error .txAlreadyExecuted
      else if s.isApproveed txIndex sender then
        if p.numApprovals = 0 then .error .underflow
        else if p.weight < s.contributionsOf sender then .error .underflow
        else
          .ok { s with
            projects := s.projects.set txIndex
              { p with numApprovals := p.numApprovals - 1
                       weight := p.weight - s.contributionsOf sender }
            isApproveed := fun i a =>
              if i = txIndex ∧ a = sender then false else s.isApproveed i a }
      else .error .txNotApproved
  else .error .notMember

/-- Function `submitProposal`: appends a fresh proposal record; no validation of the
proposed parameter values is performed. -/
def submitProposal (s : State) (sender : Address) (ty : String)
    (newMember : Address) (newPct : Nat) (newNum : Nat) (newBW : Bool) :
    Except Err State :=
  if s.isMember sender then
    .ok { s with proposals := s.proposals ++
            [{ proposalType := ty, newMember := newMember
               newPercentageApprovalsRequired := newPct
               newNumApprovalsRequired := newNum
               newVotingByWeight := newBW
               numApprovals := 0, weight := 0, executed := false }] }
  else .error .notMember

/-- Function `approveProposal`: same mechanics as `approveProject`. -/
def approveProposal (s : State) (sender : Address) (pid : Nat) :
    Except Err State :=
  if s.isMember sender then
    match s.proposals[pid]? with
    | none => .error .proposalDoesNotExist
    | some q =>
      if q.executed then .error .proposalAlreadyExecuted
      else if s.isProposalApproveed pid sender then
        .error .proposalAlreadyApproved
      else
        .ok { s with
          proposals := s.proposals.set pid
            { q with numApprovals := q.numApprovals + 1
                     weight := q.weight + s.contributionsOf sender }
          isProposalApproveed := fun i a =>
            if i = pid ∧ a = sender then true else s.isProposalApproveed i a }
  else .error .notMember

/-- The member-removal loop of `executeProposal` for kind `removeMember`:
overwrite the first occurrence with the last element, pop the last element
and stop. -/
def removeMemberLoop (ms : List Address) (target : Address) : List Address :=
  match ms.findIdx? (fun m => m = target) with
  | none => ms
  | some i => (ms.set i (ms.getLastD 0)).dropLast

/-- Function `executeProposal`: checks quorum under the current configuration, then
dispatches on the proposal type string (`addMember`, `removeMember`,
`changeParameter`; any other string gives no effect) and marks the proposal
executed. -/
def executeProposal (s : State) (sender : Address) (pid : Nat) :
    Except Err State :=
  if s.isMember sender then
    match s.proposals[pid]? with
    | none => .error .proposalDoesNotExist
    | some q =>
      if q.executed then .error .proposalAlreadyExecuted
      else
        if (if s.votingByWeight then
              s.totalContributions * s.percentageApprovalsRequired / 100 < q.weight
            else s.numApprovalsRequired ≤ q.numApprovals) then
          if q.proposalType = "addMember" then
            if s.isMember q.newMember then .error .memberAlreadyExists
            else
              .ok { s with
                isMember := fun a => if a = q.newMember then true else s.isMember a
                members := s.members ++ [q.newMember]
                proposals := s.proposals.set pid { q with executed := true } }
          else if q.proposalType = "removeMember" then
            if s.isMember q.newMember then
              .ok { s with
                isMember := fun a => if a = q.newMember then false else s.isMember a
                members := removeMemberLoop s.members q.newMember
                proposals := s.proposals.set pid { q with executed := true } }
            else .error .memberDoesNotExist
          else if q.proposalType = "changeParameter" then
            .ok { s with
              percentageApprovalsRequired := q.newPercentageApprovalsRequired
              numApprovalsRequired := q.newNumApprovalsRequired
              votingByWeight := q.newVotingByWeight
              proposals := s.proposals.set pid { q with executed := true } }
          else
            .ok { s with proposals := s.proposals.set pid { q with executed := true } }
        else
          if s.votingByWeight then .error .cannotExecuteByWeight
          else .error .cannotExecuteByCount
  else .error .notMember

/-- One externally callable state-mutating entry point of the contract,
with its arguments (the sender is explicit; the external-call oracle is an
argument of the execute operation). -/
inductive Op where
  | deposit (sender : Address) (value : Nat)
  | submitProject (sender : Address) (target : Address) (value : Nat) (data : List Nat)
  | approveProject (sender : Address) (txIndex : Nat)
  | executeProject (sender : Address) (txIndex : Nat)
      (ext : Address → Nat → List Nat → Bool)
  | revokeApproval (sender : Address) (txIndex : Nat)
  | submitProposal (sender : Address) (ty : String) (newMember : Address)
      (newPct : Nat) (newNum : Nat) (newBW : Bool)
  | approveProposal (sender : Address) (pid : Nat)
  | executeProposal (sender : Address) (pid : Nat)

/-- Dispatch one operation. -/
def stepOp (s : State) : Op → Except Err State
  | .deposit sender v => .ok (receiveFn s sender v)
  | .submitProject sender t v d => submitProject s sender t v d
  | .approveProject sender i => approveProject s sender i
  | .executeProject sender i ext => executeProject s sender i ext
  | .revokeApproval sender i => revokeApproval s sender i
  | .submitProposal sender ty nm pct num bw => submitProposal s sender ty nm pct num bw
  | .approveProposal sender i => approveProposal s sender i
  | .executeProposal sender i => executeProposal s sender i

/-- Transaction semantics: a reverting call leaves the state unchanged. -/
def applyOp (s : State) (op : Op) : State :=
  match stepOp s op with
  | .ok s2 => s2
  | .error _ => s

/-- Run a sequence of calls. -/
def run (s : State) (ops : List Op) : State := ops.foldl applyOp s

/-- Run a sequence of plain deposits (sender, value). -/
def runDeposits (s : State) (ds : List (Address × Nat)) : State :=
  ds.foldl (fun t d => receiveFn t d.1 d.2) s

/-- The `executed` flag of project `i` (false when out of range). -/
def projExecuted (s : State) (i : Nat) : Bool :=
  match s.projects[i]? with
  | some p => p.executed
  | none => false

/-- The `executed` flag of proposal `i` (false when out of range). -/
def propExecuted (s : State) (i : Nat) : Bool :=
  match s.proposals[i]? with
  | some q => q.executed
  | none => false

/-- A sample pending project used to instantiate theorems. -/
def exProject : Project :=
  { «to» := 9, value := 5, data := [], executed := false
    numApprovals := 2, weight := 7 }

/-- A sample pending `changeParameter` proposal with an out-of-range
percentage. -/
def exProposal : Proposal :=
  { proposalType := "changeParameter", newMember := 0
    newPercentageApprovalsRequired := 150, newNumApprovalsRequired := 1
    newVotingByWeight := false, numApprovals := 2, weight := 7
    executed := false }

/-- A sample reachable state: members 1, 2, 3 with contributions 3, 4, 0,
one pending project approved by 1 and 2, one pending proposal approved by
1 and 2, count mode with threshold 2. -/
def exState : State :=
  { members := [1, 2, 3]
    isMember := fun a => decide (a = 1 ∨ a = 2 ∨ a = 3)
    contributionsOf := fun a => if a = 1 then 3 else if a = 2 then 4 else 0
    totalContributions := 7
    percentageApprovalsRequired := 50
    numApprovalsRequired := 2
    votingByWeight := false
    isApproveed := fun i a => decide (i = 0 ∧ (a = 1 ∨ a = 2))
    isProposalApproveed := fun i a => decide (i = 0 ∧ (a = 1 ∨ a = 2))
    projects := [exProject]
    proposals := [exProposal]
    balance := 9 }

/-- Depositing never touches the project log. -/
theorem receiveFn_projects (s : State) (a : Address) (v : Nat) :
    (receiveFn s a v).projects = s.projects := by
  unfold receiveFn; split <;> rfl

/-- Depositing never touches the proposal log. -/
theorem receiveFn_proposals (s : State) (a : Address) (v : Nat) :
    (receiveFn s a v).proposals = s.proposals := by
  unfold receiveFn; split <;> rfl

/-- Inversion of a successful `submitProject`. -/
theorem submitProject_ok (s : State) (a : Address) (t : Address) (v : Nat)
    (d : List Nat) (s2 : State) (h : submitProject s a t v d = .ok s2) :
    s.isMember a = true ∧
      s2 = { s with projects := s.projects ++
              [{ «to» := t, value := v, data := d, executed := false
                 numApprovals := 0, weight := 0 }] } := by
  unfold submitProject at h
  split at h
  · cases h; exact ⟨by assumption, rfl⟩
  · cases h

/-- Inversion of a successful `approveProject`. -/
theorem approveProject_ok (s : State) (a : Address) (k : Nat) (s2 : State)
    (h : approveProject s a k = .ok s2) :
    ∃ pk, s.isMember a = true ∧ s.projects[k]? = some pk ∧
      pk.executed = false ∧ s.isApproveed k a = false ∧
      s2 = { s with
        projects := s.projects.set k
          { pk with numApprovals := pk.numApprovals + 1
                    weight := pk.weight + s.contributionsOf a }
        isApproveed := fun i b =>
          if i = k ∧ b = a then true else s.isApproveed i b } := by
  unfold approveProject at h
  split at h
  · split at h
    · cases h
    · split at h
      · cases h
      · split at h
        · cases h
        · cases h
          exact ⟨_, by assumption, by assumption, by simp_all, by simp_all, rfl⟩
  · cases h

/-- Inversion of a successful `revokeApproval`. -/
theorem revokeApproval_ok (s : State) (a : Address) (k : Nat) (s2 : State)
    (h : revokeApproval s a k = .ok s2) :
    ∃ pk, s.isMember a = true ∧ s.projects[k]? = some pk ∧
      pk.executed = false ∧ s.isApproveed k a = true ∧
      pk.numApprovals ≠ 0 ∧ s.contributionsOf a ≤ pk.weight ∧
      s2 = { s with
        projects := s.projects.set k
          { pk with numApprovals := pk.numApprovals - 1
                    weight := pk.weight - s.contributionsOf a }
        isApproveed := fun i b =>
          if i = k ∧ b = a then false else s.isApproveed i b } := by
  unfold revokeApproval at h
  split at h
  · split at h
    · cases h
    · split at h
      · cases h
      · split at h
        · split at h
          · cases h
          · split at h
            · cases h
            · cases h
              exact ⟨_, by assumption, by assumption, by simp_all,
                by assumption, by assumption, by omega, rfl⟩
        · cases h
  · cases h

/-- Inversion of a successful `executeProject`. -/
theorem executeProject_ok (s : State) (a : Address) (k : Nat)
    (ext : Address → Nat → List Nat → Bool) (s2 : State)
    (h : executeProject s a k ext = .ok s2) :
    ∃ pk, s.isMember a = true ∧ s.projects[k]? = some pk ∧
      pk.executed = false ∧
      (ext pk.to pk.value pk.data = true ∧ pk.value ≤ s.balance) ∧
      (if s.votingByWeight then
        s.totalContributions * s.percentageApprovalsRequired / 100 < pk.weight
       else s.numApprovalsRequired ≤ pk.numApprovals) ∧
      s2 = { s with
        projects := s.projects.set k { pk with executed := true }
        balance := s.balance - pk.value } := by
  unfold executeProject at h
  split at h
  · split at h
    · cases h
    · split at h
      · cases h
      · split at h
        · split at h
          · split at h
            · cases h
              exact ⟨_, by assumption, by assumption, by simp_all,
                by assumption, by simp_all, rfl⟩
            · cases h
          · cases h
        · split at h
          · split at h
            · cases h
              exact ⟨_, by assumption, by assumption, by simp_all,
                by assumption, by simp_all, rfl⟩
            · cases h
          · cases h
  · cases h

/-- Inversion of a successful `submitProposal`. -/
theorem submitProposal_ok (s : State) (a : Address) (ty : String)
    (nm : Address) (pct num : Nat) (bw : Bool) (s2 : State)
    (h : submitProposal s a ty nm pct num bw = .ok s2) :
    s.isMember a = true ∧
      s2 = { s with proposals := s.proposals ++
              [{ proposalType := ty, newMember := nm
                 newPercentageApprovalsRequired := pct
                 newNumApprovalsRequired := num
                 newVotingByWeight := bw
                 numApprovals := 0, weight := 0, executed := false }] } := by
  unfold submitProposal at h
  split at h
  · cases h; exact ⟨by assumption, rfl⟩
  · cases h

/-- Inversion of a successful `approveProposal`. -/
theorem approveProposal_ok (s : State) (a : Address) (k : Nat) (s2 : State)
    (h : approveProposal s a k = .ok s2) :
    ∃ qk, s.isMember a = true ∧ s.proposals[k]? = some qk ∧
      qk.executed = false ∧ s.isProposalApproveed k a = false ∧
      s2 = { s with
        proposals := s.proposals.set k
          { qk with numApprovals := qk.numApprovals + 1
                    weight := qk.weight + s.contributionsOf a }
        isProposalApproveed := fun i b =>
          if i = k ∧ b = a then true else s.isProposalApproveed i b } := by
  unfold approveProposal at h
  split at h
  · split at h
    · cases h
    · split at h
      · cases h
      · split at h
        · cases h
        · cases h
          exact ⟨_, by assumption, by assumption, by simp_all, by simp_all, rfl⟩
  · cases h

/-- Inversion of a successful `executeProposal`: the quorum gate passed, and
the state change is one of the four kind-dispatched effects, each also
marking the proposal executed. -/
theorem executeProposal_ok (s : State) (a : Address) (k : Nat) (s2 : State)
    (h : executeProposal s a k = .ok s2) :
    ∃ qk, s.isMember a = true ∧ s.proposals[k]? = some qk ∧
      qk.executed = false ∧
      (if s.votingByWeight then
        s.totalContributions * s.percentageApprovalsRequired / 100 < qk.weight
       else s.numApprovalsRequired ≤ qk.numApprovals) ∧
      ((qk.proposalType = "addMember" ∧ s.isMember qk.newMember = false ∧
          s2 = { s with
            isMember := fun b => if b = qk.newMember then true else s.isMember b
            members := s.members ++ [qk.newMember]
            proposals := s.proposals.set k { qk with executed := true } }) ∨
       (qk.proposalType = "removeMember" ∧ s.isMember qk.newMember = true ∧
          s2 = { s with
            isMember := fun b => if b = qk.newMember then false else s.isMember b
            members := removeMemberLoop s.members qk.newMember
            proposals := s.proposals.set k { qk with executed := true } }) ∨
       (qk.proposalType = "changeParameter" ∧
          s2 = { s with
            percentageApprovalsRequired := qk.newPercentageApprovalsRequired
            numApprovalsRequired := qk.newNumApprovalsRequired
            votingByWeight := qk.newVotingByWeight
            proposals := s.proposals.set k { qk with executed := true } }) ∨
       (qk.proposalType ≠ "addMember" ∧ qk.proposalType ≠ "removeMember" ∧
          qk.proposalType ≠ "changeParameter" ∧
          s2 = { s with
            proposals := s.proposals.set k { qk with executed := true } })) := by
  unfold executeProposal at h
  by_cases hm : s.isMember a = true
  case neg => rw [if_neg hm] at h; cases h
  rw [if_pos hm] at h
  rcases hqk : s.proposals[k]? with _ | qk
  · simp only [hqk] at h; cases h
  simp only [hqk] at h
  by_cases hqe : qk.executed = true
  · rw [if_pos hqe] at h; cases h
  rw [if_neg hqe] at h
  by_cases hquo : (if s.votingByWeight then
      s.totalContributions * s.percentageApprovalsRequired / 100 < qk.weight
    else s.numApprovalsRequired ≤ qk.numApprovals)
  case neg =>
    rw [if_neg hquo] at h
    rcases hv : s.votingByWeight with _ | _ <;> rw [hv] at h <;> cases h
  rw [if_pos hquo] at h
  refine ⟨qk, hm, rfl, by simpa using hqe, hquo, ?_⟩
  by_cases h1 : qk.proposalType = "addMember"
  · rw [if_pos h1] at h
    by_cases h2 : s.isMember qk.newMember = true
    · rw [if_pos h2] at h; cases h
    · rw [if_neg h2] at h; cases h
      exact Or.inl ⟨h1, by simpa using h2, rfl⟩
  rw [if_neg h1] at h
  by_cases h2 : qk.proposalType = "removeMember"
  · rw [if_pos h2] at h
    by_cases h3 : s.isMember qk.newMember = true
    · rw [if_pos h3] at h; cases h
      exact Or.inr (Or.inl ⟨h2, h3, rfl⟩)
    · rw [if_neg h3] at h; cases h
  rw [if_neg h2] at h
  by_cases h3 : qk.proposalType = "changeParameter"
  · rw [if_pos h3] at h; cases h
    exact Or.inr (Or.inr (Or.inl ⟨h3, rfl⟩))
  · rw [if_neg h3] at h; cases h
    exact Or.inr (Or.inr (Or.inr ⟨h1, h2, h3, rfl⟩))

/-- In weight mode, once the membership, existence and not-executed guards
pass, `executeProject` gets past the quorum gate iff the project weight
strictly exceeds `totalContributions * percentageApprovalsRequired / 100`. -/
theorem executeProject_weight_gate (s : State) (sender : Address) (i : Nat)
    (ext : Address → Nat → List Nat → Bool) (p : Project)
    (hm : s.isMember sender = true) (hp : s.projects[i]? = some p)
    (hpe : p.executed = false) (hw : s.votingByWeight = true) :
    (executeProject s sender i ext ≠ .error .cannotExecuteByWeight) ↔
      s.totalContributions * s.percentageApprovalsRequired / 100 < p.weight := by
  by_cases hq : s.totalContributions * s.percentageApprovalsRequired / 100 < p.weight
  · simp only [executeProject, hm, hp, hpe, hw, hq]
    by_cases hc : ext p.to p.value p.data = true ∧ p.value ≤ s.balance <;>
      simp [hc, hq]
  · simp [executeProject, hm, hp, hpe, hw, hq]

/-- In count mode, once the membership, existence and not-executed guards
pass, `executeProject` gets past the quorum gate iff the approval count is
at least `numApprovalsRequired`. -/
theorem executeProject_count_gate (s : State) (sender : Address) (i : Nat)
    (ext : Address → Nat → List Nat → Bool) (p : Project)
    (hm : s.isMember sender = true) (hp : s.projects[i]? = some p)
    (hpe : p.executed = false) (hw : s.votingByWeight = false) :
    (executeProject s sender i ext ≠ .error .cannotExecuteByCount) ↔
      s.numApprovalsRequired ≤ p.numApprovals := by
  by_cases hq : s.numApprovalsRequired ≤ p.numApprovals
  · simp only [executeProject, hm, hp, hpe, hw, hq]
    by_cases hc : ext p.to p.value p.data = true ∧ p.value ≤ s.balance <;>
      simp [hc, hq]
  · simp [executeProject, hm, hp, hpe, hw, hq]

/-- In weight mode, once the guards pass, `executeProposal` gets past the
quorum gate iff the proposal weight strictly exceeds the weight bound. -/
theorem executeProposal_weight_gate (s : State) (sender : Address) (j : Nat)
    (q : Proposal) (hm : s.isMember sender = true)
    (hq : s.proposals[j]? = some q) (hqe : q.executed = false)
    (hw : s.votingByWeight = true) :
    (executeProposal s sender j ≠ .error .cannotExecuteByWeight) ↔
      s.totalContributions * s.percentageApprovalsRequired / 100 < q.weight := by
  by_cases hg : s.totalContributions * s.percentageApprovalsRequired / 100 < q.weight
  · simp only [executeProposal, hm, hq, hqe, hw, hg]
    rcases h1 : decide (q.proposalType = "addMember") with _ | _ <;>
    rcases h2 : decide (q.proposalType = "removeMember") with _ | _ <;>
    rcases h3 : decide (q.proposalType = "changeParameter") with _ | _ <;>
      simp_all <;> by_cases h4 : s.isMember q.newMember = true <;> simp_all
  · simp [executeProposal, hm, hq, hqe, hw, hg]

/-- In count mode, once the guards pass, `executeProposal` gets past the
quorum gate iff the approval count is at least `numApprovalsRequired`. -/
theorem executeProposal_count_gate (s : State) (sender : Address) (j : Nat)
    (q : Proposal) (hm : s.isMember sender = true)
    (hq : s.proposals[j]? = some q) (hqe : q.executed = false)
    (hw : s.votingByWeight = false) :
    (executeProposal s sender j ≠ .error .cannotExecuteByCount) ↔
      s.numApprovalsRequired ≤ q.numApprovals := by
  by_cases hg : s.numApprovalsRequired ≤ q.numApprovals
  · simp only [executeProposal, hm, hq, hqe, hw, hg]
    rcases h1 : decide (q.proposalType = "addMember") with _ | _ <;>
    rcases h2 : decide (q.proposalType = "removeMember") with _ | _ <;>
    rcases h3 : decide (q.proposalType = "changeParameter") with _ | _ <;>
      simp_all <;> by_cases h4 : s.isMember q.newMember = true <;> simp_all
  · simp [executeProposal, hm, hq, hqe, hw, hg]

/-- C1: the quorum decision for executing a record — in Count mode the call
passes the quorum gate iff the approval count is at least the configured
count threshold (inclusive); in Weight mode iff the accumulated approval
weight is strictly greater than
`totalContributions * percentageApprovalsRequired / 100` with truncating
division — for every project execution and every proposal execution. -/
theorem C1_quorum_decision (s : State) (sender : Address) (i j : Nat)
    (ext : Address → Nat → List Nat → Bool) (p : Project) (q : Proposal)
    (hm : s.isMember sender = true)
    (hp : s.projects[i]? = some p) (hpe : p.executed = false)
    (hq : s.proposals[j]? = some q) (hqe : q.executed = false) :
    ((s.votingByWeight = false →
        ((executeProject s sender i ext ≠ .error .cannotExecuteByCount) ↔
          s.numApprovalsRequired ≤ p.numApprovals)) ∧
      (s.votingByWeight = true →
        ((executeProject s sender i ext ≠ .error .cannotExecuteByWeight) ↔
          s.totalContributions * s.percentageApprovalsRequired / 100 < p.weight))) ∧
    ((s.votingByWeight = false →
        ((executeProposal s sender j ≠ .error .cannotExecuteByCount) ↔
          s.numApprovalsRequired ≤ q.numApprovals)) ∧
      (s.votingByWeight = true →
        ((executeProposal s sender j ≠ .error .cannotExecuteByWeight) ↔
          s.totalContributions * s.percentageApprovalsRequired / 100 < q.weight))) :=
  ⟨⟨fun hw => executeProject_count_gate s sender i ext p hm hp hpe hw,
    fun hw => executeProject_weight_gate s sender i ext p hm hp hpe hw⟩,
   ⟨fun hw => executeProposal_count_gate s sender j q hm hq hqe hw,
    fun hw => executeProposal_weight_gate s sender j q hm hq hqe hw⟩⟩

/-- Witness for C1 at the concrete state `exState`. -/
theorem C1_quorum_decision_witness :
    ((exState.votingByWeight = false →
        ((executeProject exState 1 0 (fun _ _ _ => true) ≠ .error .cannotExecuteByCount) ↔
          exState.numApprovalsRequired ≤ exProject.numApprovals)) ∧
      (exState.votingByWeight = true →
        ((executeProject exState 1 0 (fun _ _ _ => true) ≠ .error .cannotExecuteByWeight) ↔
          exState.totalContributions * exState.percentageApprovalsRequired / 100 <
            exProject.weight))) ∧
    ((exState.votingByWeight = false →
        ((executeProposal exState 1 0 ≠ .error .cannotExecuteByCount) ↔
          exState.numApprovalsRequired ≤ exProposal.numApprovals)) ∧
      (exState.votingByWeight = true →
        ((executeProposal exState 1 0 ≠ .error .cannotExecuteByWeight) ↔
          exState.totalContributions * exState.percentageApprovalsRequired / 100 <
            exProposal.weight))) :=
  C1_quorum_decision exState 1 0 0 (fun _ _ _ => true) exProject exProposal
    (by decide) (by decide) (by decide) (by decide) (by decide)

/-- A reverting call leaves the state unchanged. -/
theorem applyOp_error (s : State) (op : Op) (e : Err)
    (h : stepOp s op = .error e) : applyOp s op = s := by
  unfold applyOp; rw [h]

/-- Executing an already-executed project reverts with the
`tx already executed` error. -/
theorem executeProject_already_executed (s : State) (a : Address) (k : Nat)
    (ext : Address → Nat → List Nat → Bool) (p : Project)
    (hm : s.isMember a = true) (hp : s.projects[k]? = some p)
    (hpe : p.executed = true) :
    executeProject s a k ext = .error .txAlreadyExecuted := by
  unfold executeProject
  rw [if_pos hm]
  simp only [hp]
  rw [if_pos hpe]

/-- Executing an already-executed proposal reverts with the
`proposal already executed` error. -/
theorem executeProposal_already_executed (s : State) (a : Address) (k : Nat)
    (q : Proposal) (hm : s.isMember a = true) (hq : s.proposals[k]? = some q)
    (hqe : q.executed = true) :
    executeProposal s a k = .error .proposalAlreadyExecuted := by
  unfold executeProposal
  rw [if_pos hm]
  simp only [hq]
  rw [if_pos hqe]

/-- Read the `executed` flag of a project through `projExecuted`. -/
theorem projExecuted_of (s : State) (i : Nat) (p : Project)
    (hp : s.projects[i]? = some p) (he : p.executed = true) :
    projExecuted s i = true := by
  unfold projExecuted; rw [hp]; exact he

/-- An executed project index yields a stored record with the flag set. -/
theorem exists_of_projExecuted (s : State) (i : Nat)
    (h : projExecuted s i = true) :
    ∃ p, s.projects[i]? = some p ∧ p.executed = true := by
  unfold projExecuted at h
  rcases hp : s.projects[i]? with _ | p
  · rw [hp] at h; cases h
  · rw [hp] at h; exact ⟨p, rfl, h⟩

/-- Read the `executed` flag of a proposal through `propExecuted`. -/
theorem propExecuted_of (s : State) (i : Nat) (q : Proposal)
    (hq : s.proposals[i]? = some q) (he : q.executed = true) :
    propExecuted s i = true := by
  unfold propExecuted; rw [hq]; exact he

/-- An executed proposal index yields a stored record with the flag set. -/
theorem exists_of_propExecuted (s : State) (i : Nat)
    (h : propExecuted s i = true) :
    ∃ q, s.proposals[i]? = some q ∧ q.executed = true := by
  unfold propExecuted at h
  rcases hq : s.proposals[i]? with _ | q
  · rw [hq] at h; cases h
  · rw [hq] at h; exact ⟨q, rfl, h⟩

/-- Reading `projExecuted` depends only on the project log. -/
theorem projExecuted_congr (s s2 : State) (i : Nat)
    (h : s2.projects = s.projects) : projExecuted s2 i = projExecuted s i := by
  unfold projExecuted; rw [h]

/-- Reading `propExecuted` depends only on the proposal log. -/
theorem propExecuted_congr (s s2 : State) (i : Nat)
    (h : s2.proposals = s.proposals) : propExecuted s2 i = propExecuted s i := by
  unfold propExecuted; rw [h]

/-- No operation ever clears the `executed` flag of a project. -/
theorem projExecuted_applyOp (s : State) (op : Op) (i : Nat)
    (h : projExecuted s i = true) : projExecuted (applyOp s op) i = true := by
  obtain ⟨p, hp, hpe⟩ := exists_of_projExecuted s i h
  have hlen : i < s.projects.length := by
    by_contra hge
    rw [List.getElem?_eq_none (by omega)] at hp; cases hp
  unfold applyOp
  rcases hstep : stepOp s op with e | s2
  · exact h
  cases op with
  | deposit a v =>
    simp only [stepOp] at hstep
    injection hstep with h2
    rw [← h2, projExecuted_congr s _ i (receiveFn_projects s a v)]
    exact h
  | submitProject a t v d =>
    simp only [stepOp] at hstep
    obtain ⟨hm, hs2⟩ := submitProject_ok s a t v d s2 hstep
    subst hs2
    refine projExecuted_of _ i p ?_ hpe
    simpa [List.getElem?_append_left hlen] using hp
  | approveProject a k =>
    simp only [stepOp] at hstep
    obtain ⟨pk, hm, hpk, hpke, hna, hs2⟩ := approveProject_ok s a k s2 hstep
    subst hs2
    by_cases hki : k = i
    · exfalso
      rw [hki, hp] at hpk
      injection hpk with h2
      rw [← h2] at hpke
      rw [hpke] at hpe
      cases hpe
    · refine projExecuted_of _ i p ?_ hpe
      simpa [List.getElem?_set_ne hki] using hp
  | executeProject a k ext =>
    simp only [stepOp] at hstep
    obtain ⟨pk, hm, hpk, hpke, hcall, hquo, hs2⟩ :=
      executeProject_ok s a k ext s2 hstep
    subst hs2
    by_cases hki : k = i
    · refine projExecuted_of _ i { pk with executed := true } ?_ rfl
      rw [← hki]
      exact List.getElem?_set_self (by omega)
    · refine projExecuted_of _ i p ?_ hpe
      simpa [List.getElem?_set_ne hki] using hp
  | revokeApproval a k =>
    simp only [stepOp] at hstep
    obtain ⟨pk, hm, hpk, hpke, hap, hna, hwle, hs2⟩ :=
      revokeApproval_ok s a k s2 hstep
    subst hs2
    by_cases hki : k = i
    · exfalso
      rw [hki, hp] at hpk
      injection hpk with h2
      rw [← h2] at hpke
      rw [hpke] at hpe
      cases hpe
    · refine projExecuted_of _ i p ?_ hpe
      simpa [List.getElem?_set_ne hki] using hp
  | submitProposal a ty nm pct num bw =>
    simp only [stepOp] at hstep
    obtain ⟨hm, hs2⟩ := submitProposal_ok s a ty nm pct num bw s2 hstep
    subst hs2
    exact projExecuted_of _ i p (by simpa using hp) hpe
  | approveProposal a k =>
    simp only [stepOp] at hstep
    obtain ⟨qk, hm, hqk, hqke, hna, hs2⟩ := approveProposal_ok s a k s2 hstep
    subst hs2
    exact projExecuted_of _ i p (by simpa using hp) hpe
  | executeProposal a k =>
    simp only [stepOp] at hstep
    obtain ⟨qk, hm, hqk, hqke, hquo, hdisp⟩ := executeProposal_ok s a k s2 hstep
    rcases hdisp with ⟨_, _, hs2⟩ | ⟨_, _, hs2⟩ | ⟨_, hs2⟩ | ⟨_, _, _, hs2⟩ <;>
      subst hs2 <;> exact projExecuted_of _ i p (by simpa using hp) hpe

/-- No operation ever clears the `executed` flag of a proposal. -/
theorem propExecuted_applyOp (s : State) (op : Op) (i : Nat)
    (h : propExecuted s i = true) : propExecuted (applyOp s op) i = true := by
  obtain ⟨q, hq, hqe⟩ := exists_of_propExecuted s i h
  have hlen : i < s.proposals.length := by
    by_contra hge
    rw [List.getElem?_eq_none (by omega)] at hq; cases hq
  unfold applyOp
  rcases hstep : stepOp s op with e | s2
  · exact h
  cases op with
  | deposit a v =>
    simp only [stepOp] at hstep
    injection hstep with h2
    rw [← h2, propExecuted_congr s _ i (receiveFn_proposals s a v)]
    exact h
  | submitProject a t v d =>
    simp only [stepOp] at hstep
    obtain ⟨hm, hs2⟩ := submitProject_ok s a t v d s2 hstep
    subst hs2
    exact propExecuted_of _ i q (by simpa using hq) hqe
  | approveProject a k =>
    simp only [stepOp] at hstep
    obtain ⟨pk, hm, hpk, hpke, hna, hs2⟩ := approveProject_ok s a k s2 hstep
    subst hs2
    exact propExecuted_of _ i q (by simpa using hq) hqe
  | executeProject a k ext =>
    simp only [stepOp] at hstep
    obtain ⟨pk, hm, hpk, hpke, hcall, hquo, hs2⟩ :=
      executeProject_ok s a k ext s2 hstep
    subst hs2
    exact propExecuted_of _ i q (by simpa using hq) hqe
  | revokeApproval a k =>
    simp only [stepOp] at hstep
    obtain ⟨pk, hm, hpk, hpke, hap, hna, hwle, hs2⟩ :=
      revokeApproval_ok s a k s2 hstep
    subst hs2
    exact propExecuted_of _ i q (by simpa using hq) hqe
  | submitProposal a ty nm pct num bw =>
    simp only [stepOp] at hstep
    obtain ⟨hm, hs2⟩ := submitProposal_ok s a ty nm pct num bw s2 hstep
    subst hs2
    refine propExecuted_of _ i q ?_ hqe
    simpa [List.getElem?_append_left hlen] using hq
  | approveProposal a k =>
    simp only [stepOp] at hstep
    obtain ⟨qk, hm, hqk, hqke, hna, hs2⟩ := approveProposal_ok s a k s2 hstep
    subst hs2
    by_cases hki : k = i
    · exfalso
      rw [hki, hq] at hqk
      injection hqk with h2
      rw [← h2] at hqke
      rw [hqke] at hqe
      cases hqe
    · refine propExecuted_of _ i q ?_ hqe
      simpa [List.getElem?_set_ne hki] using hq
  | executeProposal a k =>
    simp only [stepOp] at hstep
    obtain ⟨qk, hm, hqk, hqke, hquo, hdisp⟩ := executeProposal_ok s a k s2 hstep
    by_cases hki : k = i
    · rcases hdisp with ⟨_, _, hs2⟩ | ⟨_, _, hs2⟩ | ⟨_, hs2⟩ | ⟨_, _, _, hs2⟩ <;>
        subst hs2 <;>
        refine propExecuted_of _ i { qk with executed := true } ?_ rfl <;>
        rw [← hki] <;>
        exact List.getElem?_set_self (by omega)
    · rcases hdisp with ⟨_, _, hs2⟩ | ⟨_, _, hs2⟩ | ⟨_, hs2⟩ | ⟨_, _, _, hs2⟩ <;>
        subst hs2 <;>
        refine propExecuted_of _ i q ?_ hqe <;>
        simpa [List.getElem?_set_ne hki] using hq

/-- The project `executed` flag is monotone along any call sequence. -/
theorem projExecuted_run (s : State) (ops : List Op) (i : Nat)
    (h : projExecuted s i = true) : projExecuted (run s ops) i = true := by
  induction ops generalizing s with
  | nil => exact h
  | cons op rest ih => exact ih (applyOp s op) (projExecuted_applyOp s op i h)

/-- The proposal `executed` flag is monotone along any call sequence. -/
theorem propExecuted_run (s : State) (ops : List Op) (i : Nat)
    (h : propExecuted s i = true) : propExecuted (run s ops) i = true := by
  induction ops generalizing s with
  | nil => exact h
  | cons op rest ih => exact ih (applyOp s op) (propExecuted_applyOp s op i h)

/-- An empty placeholder state, used only as the default of `okD`. -/
def defaultState : State :=
  { members := [], isMember := fun _ => false, contributionsOf := fun _ => 0
    totalContributions := 0, percentageApprovalsRequired := 0
    numApprovalsRequired := 0, votingByWeight := false
    isApproveed := fun _ _ => false, isProposalApproveed := fun _ _ => false
    projects := [], proposals := [], balance := 0 }

/-- Extract the state of a successful call, or a default. -/
def okD (d : State) : Except Err State → State
  | .ok s => s
  | .error _ => d

/-- Variant of `exState` with project 0 and proposal 0 already executed. -/
def exExecState : State :=
  { exState with
    projects := [{ exProject with executed := true }]
    proposals := [{ exProposal with executed := true }] }

/-- C4: the `executed` flag of every record goes from false to true at most
once along any call sequence — once set it is never cleared by any
operation — and every execute call on an already-executed record reverts
with the already-executed error, leaving the entire state unchanged. -/
theorem C4_executed_at_most_once :
    (∀ (s : State) (ops : List Op) (i : Nat),
      projExecuted s i = true → projExecuted (run s ops) i = true) ∧
    (∀ (s : State) (ops : List Op) (i : Nat),
      propExecuted s i = true → propExecuted (run s ops) i = true) ∧
    (∀ (s : State) (sender : Address) (i : Nat)
      (ext : Address → Nat → List Nat → Bool) (p : Project),
      s.isMember sender = true → s.projects[i]? = some p → p.executed = true →
        executeProject s sender i ext = .error .txAlreadyExecuted ∧
          applyOp s (.executeProject sender i ext) = s) ∧
    (∀ (s : State) (sender : Address) (i : Nat) (q : Proposal),
      s.isMember sender = true → s.proposals[i]? = some q → q.executed = true →
        executeProposal s sender i = .error .proposalAlreadyExecuted ∧
          applyOp s (.executeProposal sender i) = s) :=
  ⟨fun s ops i h => projExecuted_run s ops i h,
   fun s ops i h => propExecuted_run s ops i h,
   fun s sender i ext p hm hp hpe =>
     ⟨executeProject_already_executed s sender i ext p hm hp hpe,
      applyOp_error s _ _ (executeProject_already_executed s sender i ext p hm hp hpe)⟩,
   fun s sender i q hm hq hqe =>
     ⟨executeProposal_already_executed s sender i q hm hq hqe,
      applyOp_error s _ _ (executeProposal_already_executed s sender i q hm hq hqe)⟩⟩

/-- Witness for C4 at the concrete state `exExecState`. -/
theorem C4_executed_at_most_once_witness :
    projExecuted (run exExecState [.deposit 1 5, .approveProject 3 0]) 0 = true ∧
    propExecuted (run exExecState [.deposit 1 5, .approveProposal 3 0]) 0 = true ∧
    (executeProject exExecState 1 0 (fun _ _ _ => true) = .error .txAlreadyExecuted ∧
      applyOp exExecState (.executeProject 1 0 (fun _ _ _ => true)) = exExecState) ∧
    (executeProposal exExecState 1 0 = .error .proposalAlreadyExecuted ∧
      applyOp exExecState (.executeProposal 1 0) = exExecState) :=
  ⟨C4_executed_at_most_once.1 exExecState [.deposit 1 5, .approveProject 3 0] 0
      (by decide),
   C4_executed_at_most_once.2.1 exExecState [.deposit 1 5, .approveProposal 3 0] 0
      (by decide),
   C4_executed_at_most_once.2.2.1 exExecState 1 0 (fun _ _ _ => true)
      { exProject with executed := true } (by decide) (by decide) (by decide),
   C4_executed_at_most_once.2.2.2 exExecState 1 0
      { exProposal with executed := true } (by decide) (by decide) (by decide)⟩

/-- Forward evaluation of `approveProject` when all the guards pass. -/
theorem approveProject_succeeds (s : State) (a : Address) (k : Nat)
    (pk : Project) (hm : s.isMember a = true) (hp : s.projects[k]? = some pk)
    (hpe : pk.executed = false) (hna : s.isApproveed k a = false) :
    approveProject s a k = .ok { s with
      projects := s.projects.set k
        { pk with numApprovals := pk.numApprovals + 1
                  weight := pk.weight + s.contributionsOf a }
      isApproveed := fun i b =>
        if i = k ∧ b = a then true else s.isApproveed i b } := by
  unfold approveProject
  rw [if_pos hm]
  simp only [hp]
  rw [if_neg (by simp [hpe]), if_neg (by simp [hna])]

/-- C3: for every unexecuted record, a successful approve immediately
followed by a successful revoke by the same member restores the record's
approval count and weight to their pre-approve values, and that member can
then approve the record again. -/
theorem C3_approve_revoke_inverse (s s1 s2 : State) (sender : Address)
    (i : Nat) (h1 : approveProject s sender i = .ok s1)
    (h2 : revokeApproval s1 sender i = .ok s2) :
    ∃ p p2, s.projects[i]? = some p ∧ s2.projects[i]? = some p2 ∧
      p2.numApprovals = p.numApprovals ∧ p2.weight = p.weight ∧
      p2.executed = false ∧ ∃ s3, approveProject s2 sender i = .ok s3 := by
  obtain ⟨p, hm, hp, hpe, hnap, hs1⟩ := approveProject_ok s sender i s1 h1
  have hlen : i < s.projects.length := by
    by_contra hge
    rw [List.getElem?_eq_none (by omega)] at hp; cases hp
  obtain ⟨pk, hm1, hpk1, hpke1, hap1, hna1, hwle1, hs2⟩ :=
    revokeApproval_ok s1 sender i s2 h2
  have hproj1 : s1.projects = s.projects.set i
      { p with numApprovals := p.numApprovals + 1
               weight := p.weight + s.contributionsOf sender } := by
    rw [hs1]
  have hcon1 : s1.contributionsOf = s.contributionsOf := by rw [hs1]
  have hpk : pk = { p with numApprovals := p.numApprovals + 1
                           weight := p.weight + s.contributionsOf sender } := by
    rw [hproj1, List.getElem?_set_self (by simpa using hlen)] at hpk1
    injection hpk1 with h3
    exact h3.symm
  subst hpk
  have hlen1 : i < s1.projects.length := by
    rw [hproj1]; simpa using hlen
  have hp2 : s2.projects[i]? = some
      { p with numApprovals := p.numApprovals + 1 - 1
               weight := p.weight + s.contributionsOf sender
                 - s1.contributionsOf sender } := by
    rw [hs2]
    exact List.getElem?_set_self (by simpa using hlen1)
  refine ⟨p, _, hp, hp2, by simp, by rw [hcon1]; simp, hpe, ?_⟩
  have hm2 : s2.isMember sender = true := by rw [hs2, hs1]; exact hm
  have hpe2 : ({ p with numApprovals := p.numApprovals + 1 - 1
                        weight := p.weight + s.contributionsOf sender
                          - s1.contributionsOf sender } : Project).executed
      = false := hpe
  have hna2 : s2.isApproveed i sender = false := by
    rw [hs2]; simp
  exact ⟨_, approveProject_succeeds s2 sender i _ hm2 hp2 hpe2 hna2⟩

/-- Witness for C3: member 3 approves then revokes project 0 of `exState`. -/
theorem C3_approve_revoke_inverse_witness :
    ∃ p p2, exState.projects[0]? = some p ∧
      (okD exState (revokeApproval
        (okD exState (approveProject exState 3 0)) 3 0)).projects[0]? = some p2 ∧
      p2.numApprovals = p.numApprovals ∧ p2.weight = p.weight ∧
      p2.executed = false ∧
      ∃ s3, approveProject
        (okD exState (revokeApproval
          (okD exState (approveProject exState 3 0)) 3 0)) 3 0 = .ok s3 :=
  C3_approve_revoke_inverse exState
    (okD exState (approveProject exState 3 0))
    (okD exState (revokeApproval (okD exState (approveProject exState 3 0)) 3 0))
    3 0 rfl rfl

/-- Full characterization of `executeProject` once the membership,
existence and not-executed guards pass: quorum gate under the current
configuration, then the external call decides success or the `tx failed`
revert. -/
theorem executeProject_char (s : State) (a : Address) (k : Nat)
    (ext : Address → Nat → List Nat → Bool) (p : Project)
    (hm : s.isMember a = true) (hp : s.projects[k]? = some p)
    (hpe : p.executed = false) :
    executeProject s a k ext =
      if (if s.votingByWeight then
            s.totalContributions * s.percentageApprovalsRequired / 100 < p.weight
          else s.numApprovalsRequired ≤ p.numApprovals) then
        (if ext p.to p.value p.data = true ∧ p.value ≤ s.balance then
          .ok { s with
            projects := s.projects.set k { p with executed := true }
            balance := s.balance - p.value }
        else .error .txFailed)
      else
        (if s.votingByWeight then .error .cannotExecuteByWeight
         else .error .cannotExecuteByCount) := by
  unfold executeProject
  rw [if_pos hm]
  simp only [hp]
  rw [if_neg (by simp [hpe])]
  rcases hv : s.votingByWeight with _ | _ <;> simp [hv]

/-- C5: when the quorum gate passes but the external target invocation
reports failure, the whole `executeProject` call reverts with `tx failed`,
the state — in particular the `executed` flag — is unchanged, and the same
record can later be executed by a retry whose external call succeeds. -/
theorem C5_failed_call_rolls_back (s : State) (sender : Address) (i : Nat)
    (ext ext2 : Address → Nat → List Nat → Bool) (p : Project)
    (hm : s.isMember sender = true) (hp : s.projects[i]? = some p)
    (hpe : p.executed = false)
    (hquo : if s.votingByWeight then
        s.totalContributions * s.percentageApprovalsRequired / 100 < p.weight
      else s.numApprovalsRequired ≤ p.numApprovals)
    (hext : ext p.to p.value p.data = false) :
    executeProject s sender i ext = .error .txFailed ∧
    applyOp s (.executeProject sender i ext) = s ∧
    projExecuted (applyOp s (.executeProject sender i ext)) i = false ∧
    (ext2 p.to p.value p.data = true → p.value ≤ s.balance →
      executeProject s sender i ext2 = .ok { s with
        projects := s.projects.set i { p with executed := true }
        balance := s.balance - p.value }) := by
  have hchar := executeProject_char s sender i ext p hm hp hpe
  rw [if_pos hquo, if_neg (by simp [hext])] at hchar
  refine ⟨hchar, applyOp_error s (.executeProject sender i ext) .txFailed hchar,
    ?_, ?_⟩
  · rw [applyOp_error s (.executeProject sender i ext) .txFailed hchar]
    unfold projExecuted; rw [hp]; exact hpe
  · intro h1 h2
    have hchar2 := executeProject_char s sender i ext2 p hm hp hpe
    rw [if_pos hquo, if_pos ⟨h1, h2⟩] at hchar2
    exact hchar2

/-- Witness for C5 at `exState` with an always-failing then an
always-succeeding external call. -/
theorem C5_failed_call_rolls_back_witness :
    executeProject exState 1 0 (fun _ _ _ => false) = .error .txFailed ∧
    applyOp exState (.executeProject 1 0 (fun _ _ _ => false)) = exState ∧
    projExecuted (applyOp exState (.executeProject 1 0 (fun _ _ _ => false))) 0
      = false ∧
    ((fun _ _ _ => true : Address → Nat → List Nat → Bool)
        exProject.to exProject.value exProject.data = true →
      exProject.value ≤ exState.balance →
      executeProject exState 1 0 (fun _ _ _ => true) = .ok { exState with
        projects := exState.projects.set 0 { exProject with executed := true }
        balance := exState.balance - exProject.value }) :=
  C5_failed_call_rolls_back exState 1 0 (fun _ _ _ => false) (fun _ _ _ => true)
    exProject (by decide) (by decide) (by decide) (by decide) (by decide)

/-- Replace only the quorum configuration of a state, keeping every record
and ledger entry. -/
def withConfig (s : State) (pct num : Nat) (bw : Bool) : State :=
  { s with percentageApprovalsRequired := pct
           numApprovalsRequired := num
           votingByWeight := bw }

/-- C7: the quorum mode and thresholds used by execute are those of the
configuration current at execution time: under any replaced configuration
the gate is decided by the new mode and thresholds against the record's
stored count and weight, and the very same record passes under one
configuration and fails under another. -/
theorem C7_config_at_execution_time (s : State) (sender : Address) (i : Nat)
    (ext : Address → Nat → List Nat → Bool) (p : Project)
    (pct num : Nat) (bw : Bool)
    (hm : s.isMember sender = true) (hp : s.projects[i]? = some p)
    (hpe : p.executed = false) :
    ((executeProject (withConfig s pct num bw) sender i ext
        ≠ .error .cannotExecuteByCount ∧
      executeProject (withConfig s pct num bw) sender i ext
        ≠ .error .cannotExecuteByWeight) ↔
      (if bw then s.totalContributions * pct / 100 < p.weight
       else num ≤ p.numApprovals)) ∧
    (executeProject (withConfig s pct p.numApprovals false) sender i ext
      ≠ .error .cannotExecuteByCount) ∧
    (executeProject (withConfig s pct (p.numApprovals + 1) false) sender i ext
      = .error .cannotExecuteByCount) := by
  refine ⟨?_, ?_, ?_⟩
  · have hchar := executeProject_char (withConfig s pct num bw) sender i ext p
      hm hp hpe
    simp only [withConfig] at hchar ⊢
    rw [hchar]
    by_cases hq : (if bw then s.totalContributions * pct / 100 < p.weight
       else num ≤ p.numApprovals)
    · rw [if_pos hq]
      by_cases hc : ext p.to p.value p.data = true ∧ p.value ≤ s.balance <;>
        simp [hq, hc]
    · rw [if_neg hq]
      rcases hb : bw with _ | _ <;> simp_all
  · have hchar := executeProject_char (withConfig s pct p.numApprovals false)
      sender i ext p hm hp hpe
    simp only [withConfig] at hchar ⊢
    rw [hchar, if_pos (by simp)]
    by_cases hc : ext p.to p.value p.data = true ∧ p.value ≤ s.balance <;>
      simp [hc]
  · have hchar := executeProject_char (withConfig s pct (p.numApprovals + 1)
      false) sender i ext p hm hp hpe
    simp only [withConfig] at hchar ⊢
    rw [hchar, if_neg (by simp [Nat.add_one_le_iff]), if_neg (by simp)]

/-- Witness for C7 at `exState` with a replacement weight-mode
configuration. -/
theorem C7_config_at_execution_time_witness :
    ((executeProject (withConfig exState 80 1 true) 1 0 (fun _ _ _ => true)
        ≠ .error .cannotExecuteByCount ∧
      executeProject (withConfig exState 80 1 true) 1 0 (fun _ _ _ => true)
        ≠ .error .cannotExecuteByWeight) ↔
      (if true then exState.totalContributions * 80 / 100 < exProject.weight
       else 1 ≤ exProject.numApprovals)) ∧
    (executeProject (withConfig exState 80 exProject.numApprovals false) 1 0
      (fun _ _ _ => true) ≠ .error .cannotExecuteByCount) ∧
    (executeProject (withConfig exState 80 (exProject.numApprovals + 1) false)
      1 0 (fun _ _ _ => true) = .error .cannotExecuteByCount) :=
  C7_config_at_execution_time exState 1 0 (fun _ _ _ => true) exProject 80 1
    true (by decide) (by decide) (by decide)

/-- Approval weight of project `i` (0 when out of range). -/
def projWeightAt (s : State) (i : Nat) : Nat :=
  match s.projects[i]? with
  | some p => p.weight
  | none => 0

/-- The deployed two-member state of the revoke scenario: members 1 and 2,
count threshold 1, percentage 50, count mode. -/
def c2S0 : State := okD defaultState (deployFundme [1, 2] 1 50 false)

/-- Member 1 deposits 1, submits project 0 and approves it — the approval
adds weight 1 — then deposits 4 more; member 2 deposits 10 and approves,
bringing the weight to 11. -/
def c2Pre : State := run c2S0
  [.deposit 1 1, .submitProject 1 9 0 [], .approveProject 1 0,
   .deposit 1 4, .deposit 2 10, .approveProject 2 0]

/-- C2 evaluation on the failing input: the approval of member 1 added
exactly 1 to the weight of project 0, but after member 1 deposits 4 more
(current contribution 5), the successful revoke subtracts 5 — leaving
weight 6 instead of 10 — and in the variant without the second approval
the same revoke reverts with a checked-arithmetic underflow (weight 1 minus
contribution 5). -/
theorem C2_revoke_uses_current_contribution :
    projWeightAt (run c2S0 [.deposit 1 1, .submitProject 1 9 0 [],
        .approveProject 1 0]) 0 = 1 ∧
    projWeightAt c2Pre 0 = 11 ∧
    c2Pre.contributionsOf 1 = 5 ∧
    revokeApproval c2Pre 1 0 =
      .ok (okD defaultState (revokeApproval c2Pre 1 0)) ∧
    projWeightAt (applyOp c2Pre (.revokeApproval 1 0)) 0 = 6 ∧
    revokeApproval (run c2S0 [.deposit 1 1, .submitProject 1 9 0 [],
      .approveProject 1 0, .deposit 1 4]) 1 0 = .error .underflow :=
  ⟨by decide, by decide, by decide, rfl, by decide, rfl⟩

/-- Inversion of a successful constructor member-installation loop: the
final list appends the installed members, the membership map is the union,
the installed members are pairwise distinct, and none was already a
member. -/
theorem installMembers_ok (ms : List Address) (acc : List Address)
    (im : Address → Bool) (r : List Address × (Address → Bool))
    (h : installMembers ms acc im = .ok r) :
    r.1 = acc ++ ms ∧ (∀ a, r.2 a = (im a || decide (a ∈ ms))) ∧
      ms.Nodup ∧ ∀ m ∈ ms, im m = false := by
  induction ms generalizing acc im with
  | nil =>
    simp only [installMembers] at h
    cases h
    simp
  | cons m rest ih =>
    simp only [installMembers] at h
    split at h
    · cases h
    · split at h
      · cases h
      · obtain ⟨h1, h2, h3, h4⟩ := ih (acc ++ [m]) _ h
        refine ⟨by simpa using h1, ?_, ?_, ?_⟩
        · intro a
          rw [h2 a]
          by_cases ham : a = m <;> simp [ham]
        · refine List.nodup_cons.mpr ⟨?_, h3⟩
          intro hmem
          have h5 := h4 m hmem
          simp at h5
        · intro x hx
          rcases List.mem_cons.mp hx with hh | hh
          · subst hh; simpa using (by assumption : ¬ im x = true)
          · have h5 := h4 x hh
            by_cases hxm : x = m
            · simp [hxm] at h5
            · simpa [hxm] using h5

/-- Inversion of a successful deployment: the stored members are exactly
the constructor arguments, duplicate-free and synchronized with the
membership map, contributions start at zero, the configuration is stored,
and the constructor bounds hold. -/
theorem deployFundme_ok (ms : List Address) (numReq pctReq : Nat) (bw : Bool)
    (s0 : State) (h : deployFundme ms numReq pctReq bw = .ok s0) :
    s0.members = ms ∧ (∀ a, s0.isMember a = decide (a ∈ ms)) ∧
      ms.Nodup ∧ s0.contributionsOf = (fun _ => 0) ∧
      s0.totalContributions = 0 ∧
      s0.percentageApprovalsRequired = pctReq ∧
      s0.numApprovalsRequired = numReq ∧ s0.votingByWeight = bw ∧
      pctReq ≤ 100 ∧ numReq ≤ ms.length ∧ ms ≠ [] := by
  unfold deployFundme at h
  split at h
  · cases h
  split at h
  · cases h
  split at h
  · cases h
  split at h
  · cases h
  rename_i hne hpct hnum scrut mlist im heq
  cases h
  obtain ⟨h1, h2, h3, h4⟩ := installMembers_ok ms [] (fun _ => false)
    (mlist, im) heq
  refine ⟨by simpa using h1, ?_, h3, rfl, rfl, rfl, rfl, rfl,
    by omega, by omega, ?_⟩
  · intro a
    simpa using h2 a
  · intro hnil
    rw [hnil] at hne
    simp at hne

/-- Membership map and member list agree. -/
def memberSync (s : State) : Prop :=
  ∀ a, s.isMember a = true ↔ a ∈ s.members

/-- The running total equals the sum of the members' contributions. -/
def sumInv (s : State) : Prop :=
  (s.members.map s.contributionsOf).sum = s.totalContributions

/-- Adding `v` at one element of a duplicate-free list adds `v` to the
mapped sum exactly once. -/
theorem sum_map_update (l : List Nat) (f : Nat → Nat) (x v : Nat)
    (hnd : l.Nodup) (hx : x ∈ l) :
    (l.map fun a => if a = x then f a + v else f a).sum = (l.map f).sum + v := by
  induction l with
  | nil => cases hx
  | cons b rest ih =>
    rcases List.mem_cons.mp hx with hb | hb
    · subst hb
      have hxr : x ∉ rest := (List.nodup_cons.mp hnd).1
      have hrest : (rest.map fun a => if a = x then f a + v else f a)
          = rest.map f := by
        apply List.map_congr_left
        intro a ha
        rw [if_neg]
        intro hax
        exact hxr (hax ▸ ha)
      have hhead : (if x = x then f x + v else f x) = f x + v := if_pos rfl
      rw [List.map_cons, List.sum_cons, hrest, hhead, List.map_cons,
        List.sum_cons]
      omega
    · have hbx : b ≠ x := by
        rintro rfl
        exact (List.nodup_cons.mp hnd).1 hb
      have hhead : (if b = x then f b + v else f b) = f b := if_neg hbx
      rw [List.map_cons, List.sum_cons, hhead, List.map_cons, List.sum_cons,
        ih (List.nodup_cons.mp hnd).2 hb]
      omega

/-- A deposit preserves membership synchronization, duplicate-freeness of
the member list, and the contribution-sum invariant. -/
theorem receiveFn_inv (s : State) (a : Address) (v : Nat)
    (hsync : memberSync s) (hnd : s.members.Nodup) (hinv : sumInv s) :
    memberSync (receiveFn s a v) ∧ (receiveFn s a v).members.Nodup ∧
      sumInv (receiveFn s a v) := by
  unfold receiveFn
  by_cases hm : s.isMember a = true
  · rw [if_pos hm]
    refine ⟨hsync, hnd, ?_⟩
    unfold sumInv
    show (s.members.map fun b =>
      if b = a then s.contributionsOf b + v else s.contributionsOf b).sum
        = s.totalContributions + v
    rw [sum_map_update s.members s.contributionsOf a v hnd ((hsync a).mp hm)]
    rw [hinv]
  · rw [if_neg hm]
    exact ⟨hsync, hnd, hinv⟩

/-- The three invariants hold after any sequence of deposits. -/
theorem runDeposits_inv (s : State) (ds : List (Address × Nat))
    (hsync : memberSync s) (hnd : s.members.Nodup) (hinv : sumInv s) :
    memberSync (runDeposits s ds) ∧ (runDeposits s ds).members.Nodup ∧
      sumInv (runDeposits s ds) := by
  induction ds generalizing s with
  | nil => exact ⟨hsync, hnd, hinv⟩
  | cons d rest ih =>
    obtain ⟨h1, h2, h3⟩ := receiveFn_inv s d.1 d.2 hsync hnd hinv
    exact ih (receiveFn s d.1 d.2) h1 h2 h3

/-- C6: starting from any valid construction, after any sequence of
deposits the sum of the members' recorded contributions equals
`totalContributions`; a deposit from a current member increases their
contribution and the total by the deposited amount, a deposit from a
non-member changes neither, and every deposit is accepted into the
balance. -/
theorem C6_total_is_contribution_sum (ms : List Address)
    (numReq pctReq : Nat) (bw : Bool) (s0 : State)
    (ds : List (Address × Nat))
    (h : deployFundme ms numReq pctReq bw = .ok s0) :
    ((runDeposits s0 ds).members.map
        (runDeposits s0 ds).contributionsOf).sum
      = (runDeposits s0 ds).totalContributions ∧
    (∀ (s : State) (a : Address) (v : Nat), s.isMember a = true →
      (receiveFn s a v).contributionsOf a = s.contributionsOf a + v ∧
      (receiveFn s a v).totalContributions = s.totalContributions + v ∧
      (receiveFn s a v).balance = s.balance + v) ∧
    (∀ (s : State) (a : Address) (v : Nat), s.isMember a = false →
      (receiveFn s a v).contributionsOf = s.contributionsOf ∧
      (receiveFn s a v).totalContributions = s.totalContributions ∧
      (receiveFn s a v).balance = s.balance + v) := by
  obtain ⟨h1, h2, h3, h4, h5, _, _, _, _, _, _⟩ :=
    deployFundme_ok ms numReq pctReq bw s0 h
  refine ⟨?_, ?_, ?_⟩
  · have hsync : memberSync s0 := by
      intro a
      rw [h2 a, h1]
      simp
    have hnd : s0.members.Nodup := by rw [h1]; exact h3
    have hinv : sumInv s0 := by
      unfold sumInv
      rw [h4, h5]
      simp
    exact (runDeposits_inv s0 ds hsync hnd hinv).2.2
  · intro s a v hm
    unfold receiveFn
    rw [if_pos hm]
    simp
  · intro s a v hm
    unfold receiveFn
    rw [if_neg (by simp [hm])]
    exact ⟨rfl, rfl, rfl⟩

/-- Witness for C6: deploy with members 1 and 2, then deposits from member
1, non-member 7, and member 2. -/
theorem C6_total_is_contribution_sum_witness :
    ((runDeposits c2S0 [(1, 5), (7, 3), (2, 2)]).members.map
        (runDeposits c2S0 [(1, 5), (7, 3), (2, 2)]).contributionsOf).sum
      = (runDeposits c2S0 [(1, 5), (7, 3), (2, 2)]).totalContributions ∧
    ((receiveFn exState 1 6).contributionsOf 1 = exState.contributionsOf 1 + 6 ∧
      (receiveFn exState 1 6).totalContributions
        = exState.totalContributions + 6 ∧
      (receiveFn exState 1 6).balance = exState.balance + 6) ∧
    ((receiveFn exState 7 6).contributionsOf = exState.contributionsOf ∧
      (receiveFn exState 7 6).totalContributions = exState.totalContributions ∧
      (receiveFn exState 7 6).balance = exState.balance + 6) :=
  ⟨(C6_total_is_contribution_sum [1, 2] 1 50 false c2S0 [(1, 5), (7, 3), (2, 2)]
      rfl).1,
   (C6_total_is_contribution_sum [1, 2] 1 50 false c2S0 [] rfl).2.1
      exState 1 6 (by decide),
   (C6_total_is_contribution_sum [1, 2] 1 50 false c2S0 [] rfl).2.2
      exState 7 6 (by decide)⟩

/-- Forward evaluation of `executeProposal` on a `changeParameter` proposal
whose quorum gate passes: the three configuration fields are overwritten
with the proposal's stored values, with no validation. -/
theorem executeProposal_changeParameter_eval (s : State) (a : Address)
    (j : Nat) (q : Proposal) (hm : s.isMember a = true)
    (hq : s.proposals[j]? = some q) (hqe : q.executed = false)
    (hty : q.proposalType = "changeParameter")
    (hquo : if s.votingByWeight then
        s.totalContributions * s.percentageApprovalsRequired / 100 < q.weight
      else s.numApprovalsRequired ≤ q.numApprovals) :
    executeProposal s a j = .ok { s with
      percentageApprovalsRequired := q.newPercentageApprovalsRequired
      numApprovalsRequired := q.newNumApprovalsRequired
      votingByWeight := q.newVotingByWeight
      proposals := s.proposals.set j { q with executed := true } } := by
  unfold executeProposal
  rw [if_pos hm]
  simp only [hq]
  rw [if_neg (by simp [hqe]), if_pos hquo,
    if_neg (show ¬q.proposalType = "addMember" by rw [hty]; decide),
    if_neg (show ¬q.proposalType = "removeMember" by rw [hty]; decide),
    if_pos hty]

/-- Forward evaluation of `executeProposal` on a `removeMember` proposal
whose quorum gate passes and whose target is a member. -/
theorem executeProposal_removeMember_eval (s : State) (a : Address)
    (j : Nat) (q : Proposal) (hm : s.isMember a = true)
    (hq : s.proposals[j]? = some q) (hqe : q.executed = false)
    (hty : q.proposalType = "removeMember")
    (hmem : s.isMember q.newMember = true)
    (hquo : if s.votingByWeight then
        s.totalContributions * s.percentageApprovalsRequired / 100 < q.weight
      else s.numApprovalsRequired ≤ q.numApprovals) :
    executeProposal s a j = .ok { s with
      isMember := fun b => if b = q.newMember then false else s.isMember b
      members := removeMemberLoop s.members q.newMember
      proposals := s.proposals.set j { q with executed := true } } := by
  unfold executeProposal
  rw [if_pos hm]
  simp only [hq]
  rw [if_neg (by simp [hqe]), if_pos hquo,
    if_neg (show ¬q.proposalType = "addMember" by rw [hty]; decide),
    if_pos hty, if_pos hmem]

/-- Forward evaluation of `executeProposal` on a proposal of any other kind
string whose quorum gate passes: no dispatch branch fires, the proposal is
only marked executed. -/
theorem executeProposal_other_eval (s : State) (a : Address) (j : Nat)
    (q : Proposal) (hm : s.isMember a = true)
    (hq : s.proposals[j]? = some q) (hqe : q.executed = false)
    (h1 : q.proposalType ≠ "addMember") (h2 : q.proposalType ≠ "removeMember")
    (h3 : q.proposalType ≠ "changeParameter")
    (hquo : if s.votingByWeight then
        s.totalContributions * s.percentageApprovalsRequired / 100 < q.weight
      else s.numApprovalsRequired ≤ q.numApprovals) :
    executeProposal s a j = .ok { s with
      proposals := s.proposals.set j { q with executed := true } } := by
  unfold executeProposal
  rw [if_pos hm]
  simp only [hq]
  rw [if_neg (by simp [hqe]), if_pos hquo, if_neg h1, if_neg h2, if_neg h3]

/-- C8: a `changeParameter` proposal that reaches quorum unconditionally
overwrites the count threshold, the weight threshold percentage and the
voting mode with its stored values; neither submission nor execution
validates those values (a percentage above 100 is accepted end to end),
while the constructor does enforce `pctReq ≤ 100` and
`numReq ≤ ms.length`. -/
theorem C8_changeParameter_unvalidated :
    (∀ (s : State) (sender : Address) (ty : String) (nm : Address)
        (pct num : Nat) (bw : Bool), s.isMember sender = true →
      submitProposal s sender ty nm pct num bw = .ok { s with
        proposals := s.proposals ++
          [{ proposalType := ty, newMember := nm,
             newPercentageApprovalsRequired := pct,
             newNumApprovalsRequired := num, newVotingByWeight := bw,
             numApprovals := 0, weight := 0, executed := false }] }) ∧
    (∀ (s : State) (sender : Address) (j : Nat) (q : Proposal),
      s.isMember sender = true → s.proposals[j]? = some q →
      q.executed = false → q.proposalType = "changeParameter" →
      (if s.votingByWeight then
          s.totalContributions * s.percentageApprovalsRequired / 100 < q.weight
        else s.numApprovalsRequired ≤ q.numApprovals) →
      ∃ s2, executeProposal s sender j = .ok s2 ∧
        s2.percentageApprovalsRequired = q.newPercentageApprovalsRequired ∧
        s2.numApprovalsRequired = q.newNumApprovalsRequired ∧
        s2.votingByWeight = q.newVotingByWeight) ∧
    (∀ (ms : List Address) (numReq pctReq : Nat) (bw : Bool) (s0 : State),
      deployFundme ms numReq pctReq bw = .ok s0 →
        pctReq ≤ 100 ∧ numReq ≤ ms.length) ∧
    (∀ (ms : List Address) (numReq pctReq : Nat) (bw : Bool),
      ms.length ≠ 0 → 100 < pctReq →
        deployFundme ms numReq pctReq bw = .error .invalidPercentage) := by
  refine ⟨?_, ?_, ?_, ?_⟩
  · intro s sender ty nm pct num bw hm
    unfold submitProposal
    rw [if_pos hm]
  · intro s sender j q hm hq hqe hty hquo
    exact ⟨_, executeProposal_changeParameter_eval s sender j q hm hq hqe hty
      hquo, rfl, rfl, rfl⟩
  · intro ms numReq pctReq bw s0 h
    obtain ⟨_, _, _, _, _, _, _, _, hb1, hb2, _⟩ :=
      deployFundme_ok ms numReq pctReq bw s0 h
    exact ⟨hb1, hb2⟩
  · intro ms numReq pctReq bw hne hpct
    unfold deployFundme
    rw [if_neg hne, if_pos hpct]

/-- Witness for C8 at `exState`, whose pending proposal carries the
out-of-range percentage 150. -/
theorem C8_changeParameter_unvalidated_witness :
    (submitProposal exState 1 "changeParameter" 0 150 1 false = .ok
      { exState with
        proposals := exState.proposals ++
          [{ proposalType := "changeParameter", newMember := 0,
             newPercentageApprovalsRequired := 150,
             newNumApprovalsRequired := 1, newVotingByWeight := false,
             numApprovals := 0, weight := 0, executed := false }] }) ∧
    (∃ s2, executeProposal exState 1 0 = .ok s2 ∧
      s2.percentageApprovalsRequired
        = exProposal.newPercentageApprovalsRequired ∧
      s2.numApprovalsRequired = exProposal.newNumApprovalsRequired ∧
      s2.votingByWeight = exProposal.newVotingByWeight) ∧
    (50 ≤ 100 ∧ 1 ≤ ([1, 2] : List Address).length) ∧
    deployFundme [1, 2] 1 150 false = .error .invalidPercentage :=
  ⟨C8_changeParameter_unvalidated.1 exState 1 "changeParameter" 0 150 1 false
      (by decide),
   C8_changeParameter_unvalidated.2.1 exState 1 0 exProposal (by decide)
      (by decide) (by decide) (by decide) (by decide),
   C8_changeParameter_unvalidated.2.2.1 [1, 2] 1 50 false c2S0 rfl,
   C8_changeParameter_unvalidated.2.2.2 [1, 2] 1 150 false (by decide)
      (by decide)⟩

/-- C9: executing a `removeMember` proposal leaves the project log and the
per-project approval sets — hence every other pending record's count and
weight, including the removed member's already-cast approvals — unchanged,
removes the member from the membership map, and the removed member can no
longer revoke an approval, since revoke requires a current member; other
proposals are untouched as well. -/
theorem C9_removeMember_frame (s : State) (sender : Address) (j : Nat)
    (q : Proposal) (s2 : State) (hq : s.proposals[j]? = some q)
    (hty : q.proposalType = "removeMember")
    (h : executeProposal s sender j = .ok s2) :
    s2.projects = s.projects ∧
    s2.isApproveed = s.isApproveed ∧
    s2.contributionsOf = s.contributionsOf ∧
    s2.isMember q.newMember = false ∧
    (∀ i, revokeApproval s2 q.newMember i = .error .notMember) ∧
    (∀ k, k ≠ j → s2.proposals[k]? = s.proposals[k]?) ∧
    s2.isProposalApproveed = s.isProposalApproveed := by
  obtain ⟨qk, hm, hqk, hqke, hquo, hdisp⟩ := executeProposal_ok s sender j s2 h
  rw [hq] at hqk
  injection hqk with hqk2
  subst hqk2
  rcases hdisp with ⟨ht, _, hs2⟩ | ⟨ht, hmem, hs2⟩ | ⟨ht, hs2⟩ |
      ⟨_, ht, _, hs2⟩
  · rw [hty] at ht; exact absurd ht (by decide)
  · subst hs2
    refine ⟨rfl, rfl, rfl, by simp, ?_, ?_, rfl⟩
    · intro i
      unfold revokeApproval
      rw [if_neg (by simp)]
    · intro k hkj
      exact List.getElem?_set_ne (fun hjk => hkj hjk.symm)
  · rw [hty] at ht; exact absurd ht (by decide)
  · exact absurd hty ht

/-- A `removeMember` variant of the example state: the pending proposal
removes member 2. -/
def exRemoveState : State :=
  { exState with proposals :=
      [{ exProposal with proposalType := "removeMember", newMember := 2 }] }

/-- Witness for C9 at `exRemoveState`. -/
theorem C9_removeMember_frame_witness :
    (okD defaultState (executeProposal exRemoveState 1 0)).projects
        = exRemoveState.projects ∧
    (okD defaultState (executeProposal exRemoveState 1 0)).isApproveed
        = exRemoveState.isApproveed ∧
    (okD defaultState (executeProposal exRemoveState 1 0)).contributionsOf
        = exRemoveState.contributionsOf ∧
    (okD defaultState (executeProposal exRemoveState 1 0)).isMember
        ({ exProposal with proposalType := "removeMember", newMember := 2 }
          : Proposal).newMember = false ∧
    (∀ i, revokeApproval (okD defaultState (executeProposal exRemoveState 1 0))
        ({ exProposal with proposalType := "removeMember", newMember := 2 }
          : Proposal).newMember i = .error .notMember) ∧
    (∀ k, k ≠ 0 →
      (okD defaultState (executeProposal exRemoveState 1 0)).proposals[k]?
        = exRemoveState.proposals[k]?) ∧
    (okD defaultState (executeProposal exRemoveState 1 0)).isProposalApproveed
        = exRemoveState.isProposalApproveed :=
  C9_removeMember_frame exRemoveState 1 0
    { exProposal with proposalType := "removeMember", newMember := 2 }
    (okD defaultState (executeProposal exRemoveState 1 0))
    (by decide) (by decide) rfl

/-- C10: a proposal whose kind string is none of the three dispatched kinds
executes successfully once quorum is met, changes neither the member set,
the contributions, the configuration nor the project log, and is still
marked executed — terminally, since any further execute call on it reverts
as already executed. -/
theorem C10_unknown_kind_noop (s : State) (sender : Address) (j : Nat)
    (q : Proposal) (hm : s.isMember sender = true)
    (hq : s.proposals[j]? = some q) (hqe : q.executed = false)
    (h1 : q.proposalType ≠ "addMember") (h2 : q.proposalType ≠ "removeMember")
    (h3 : q.proposalType ≠ "changeParameter")
    (hquo : if s.votingByWeight then
        s.totalContributions * s.percentageApprovalsRequired / 100 < q.weight
      else s.numApprovalsRequired ≤ q.numApprovals) :
    ∃ s2, executeProposal s sender j = .ok s2 ∧
      s2.members = s.members ∧ s2.isMember = s.isMember ∧
      s2.contributionsOf = s.contributionsOf ∧
      s2.totalContributions = s.totalContributions ∧
      s2.percentageApprovalsRequired = s.percentageApprovalsRequired ∧
      s2.numApprovalsRequired = s.numApprovalsRequired ∧
      s2.votingByWeight = s.votingByWeight ∧
      s2.projects = s.projects ∧ s2.balance = s.balance ∧
      s2.proposals[j]? = some { q with executed := true } ∧
      (∀ k, k ≠ j → s2.proposals[k]? = s.proposals[k]?) ∧
      (∀ a, s2.isMember a = true →
        executeProposal s2 a j = .error .proposalAlreadyExecuted) := by
  have hlen : j < s.proposals.length := by
    by_contra hge
    rw [List.getElem?_eq_none (by omega)] at hq; cases hq
  have heval := executeProposal_other_eval s sender j q hm hq hqe h1 h2 h3 hquo
  refine ⟨_, heval, rfl, rfl, rfl, rfl, rfl, rfl, rfl, rfl, rfl, ?_, ?_, ?_⟩
  · exact List.getElem?_set_self (by simpa using hlen)
  · intro k hkj
    exact List.getElem?_set_ne (fun hjk => hkj hjk.symm)
  · intro a ha
    exact executeProposal_already_executed _ a j { q with executed := true } ha
      (List.getElem?_set_self (by simpa using hlen)) rfl

/-- A variant of the example state whose pending proposal has an unknown
kind string. -/
def exOtherState : State :=
  { exState with proposals :=
      [{ exProposal with proposalType := "fundMoon" }] }

/-- Witness for C10 at `exOtherState`. -/
theorem C10_unknown_kind_noop_witness :
    ∃ s2, executeProposal exOtherState 1 0 = .ok s2 ∧
      s2.members = exOtherState.members ∧ s2.isMember = exOtherState.isMember ∧
      s2.contributionsOf = exOtherState.contributionsOf ∧
      s2.totalContributions = exOtherState.totalContributions ∧
      s2.percentageApprovalsRequired
        = exOtherState.percentageApprovalsRequired ∧
      s2.numApprovalsRequired = exOtherState.numApprovalsRequired ∧
      s2.votingByWeight = exOtherState.votingByWeight ∧
      s2.projects = exOtherState.projects ∧ s2.balance = exOtherState.balance ∧
      s2.proposals[0]? = some
        { ({ exProposal with proposalType := "fundMoon" } : Proposal) with
            executed := true } ∧
      (∀ k, k ≠ 0 → s2.proposals[k]? = exOtherState.proposals[k]?) ∧
      (∀ a, s2.isMember a = true →
        executeProposal s2 a 0 = .error .proposalAlreadyExecuted) :=
  C10_unknown_kind_noop exOtherState 1 0
    { exProposal with proposalType := "fundMoon" }
    (by decide) (by decide) (by decide) (by decide) (by decide) (by decide)
    (by decide)

end Fundme
